import Mathlib

/-!
Verification development for the Crystal web-server layer.

The definitions below are a shallow embedding of the TypeScript sources:
`main/src/services/apiRouter.ts` (request dispatch and response wrapping),
`main/src/services/webServerManager.ts` (auth middleware and CORS setup),
`main/src/index.ts` (service initialization), and the `AppConfig` type
(permission modes).  Components of the repository that are not present under
the source tree (SessionManager, TaskQueue, Permission IPC server,
ExecutionTracker) are modelled from the specification; each such definition
carries a doc comment that starts with `Modelled from the spec:`.
-/

namespace Crystal

/-! ## Request dispatch (apiRouter.ts, `simulateIpcCall`) -/

/-- The service object whose method `simulateIpcCall` invokes for a handler. -/
inductive DispatchTarget where
  | sessionManager
  | databaseService
  | configManager
  | appInfo
  | taskQueue
  | unknownHandler
deriving DecidableEq, Repr

/-- Dispatch table of `simulateIpcCall` in `apiRouter.ts`: for each handler
name, the service whose method the router invokes directly.  Taken from the
`switch (handler)` statement; note that no case dispatches to the task
queue. -/
def simulateIpcCallTarget : String → DispatchTarget
  | "sessions:getAll" => .sessionManager
  | "sessions:get" => .sessionManager
  | "sessions:create" => .sessionManager
  | "sessions:delete" => .sessionManager
  | "sessions:getOutput" => .sessionManager
  | "sessions:getConversation" => .sessionManager
  | "sessions:continue" => .sessionManager
  | "projects:getAll" => .databaseService
  | "projects:create" => .databaseService
  | "projects:get" => .databaseService
  | "projects:update" => .databaseService
  | "projects:delete" => .databaseService
  | "projects:activate" => .databaseService
  | "config:get" => .configManager
  | "config:update" => .configManager
  | "app:getVersion" => .appInfo
  | "app:getPlatform" => .appInfo
  | "app:isPackaged" => .appInfo
  | _ => .unknownHandler

/-- Route table of the session routes registered in `createApiRouter`
(method, path, handler name). -/
def sessionRoutes : List (String × String × String) :=
  [("GET", "/sessions", "sessions:getAll"),
   ("POST", "/sessions", "sessions:create"),
   ("GET", "/sessions/:id", "sessions:get"),
   ("DELETE", "/sessions/:id", "sessions:delete"),
   ("POST", "/sessions/:id/continue", "sessions:continue"),
   ("GET", "/sessions/:id/output", "sessions:getOutput"),
   ("GET", "/sessions/:id/conversation", "sessions:getConversation")]

/-! ## `createSession` argument order (apiRouter.ts, case `sessions:create`) -/

/-- A positional argument of the `createSession` call, identified by the
request-body field the router reads it from. -/
inductive ArgField where
  | name
  | worktreePath
  | prompt
  | worktreeName
  | permissionMode
  | projectId
  | isMainRepo
  | autoCommit
  | folderId
deriving DecidableEq, Repr

/-- The positional argument order with which the router invokes
`sessionManager.createSession` in the `sessions:create` case of
`apiRouter.ts` (lines 21-31 of the source). -/
def routerCreateSessionArgOrder : List ArgField :=
  [.name, .worktreePath, .prompt, .worktreeName, .permissionMode,
   .projectId, .isMainRepo, .autoCommit, .folderId]

/-- The argument order the specification's Session Manager contract states,
written from the spec's words for comparison with
`routerCreateSessionArgOrder`. -/
def specCreateSessionArgOrder : List ArgField :=
  [.name, .prompt, .projectId, .worktreeName, .permissionMode,
   .isMainRepo, .autoCommit, .folderId]

/-! ## Permission modes (`AppConfig.defaultPermissionMode` in the config type) -/

/-- The permission mode for sessions.  The config type declares
`defaultPermissionMode` as the union of the literal types "approve" and
"ignore" — exactly two values. -/
inductive PermissionMode where
  | approve
  | ignore
deriving DecidableEq, Repr

/-- The literal string of each permission-mode value in the TypeScript union
type, "approve" or "ignore". -/
def modeCode : PermissionMode → String
  | .approve => "approve"
  | .ignore => "ignore"

/-- The decision of the permission channel. -/
inductive Decision where
  | approve
  | deny
deriving DecidableEq, Repr

/-- Modelled from the spec: the Permission Channel implementation
(`permissionIpcServer.ts`) is absent from the source tree.  The spec's
decision policy — the decision is looked up from the owning session's
permission mode at request time, the approving mode always approves and the
other mode always denies — instantiated at the two mode values the config
type actually declares. -/
def channelDecision : PermissionMode → Decision
  | .approve => .approve
  | .ignore => .deny

/-! ## Response wrapping (apiRouter.ts, `handleRequest`) -/

/-- The value a service method returns to `simulateIpcCall`: either an
object that already contains a `success` field, or any other value. -/
inductive IpcValue where
  | wrapped (success : Bool) (payload : String)
  | plain (payload : String)
deriving DecidableEq, Repr

/-- The JSON body `handleRequest` sends. -/
inductive ResponseBody where
  | passthrough (success : Bool) (payload : String)
  | successData (payload : String)
  | failure (error : String)
deriving DecidableEq, Repr

/-- An HTTP response: status code and JSON body. -/
structure HttpResponse where
  status : Nat
  body : ResponseBody
deriving DecidableEq, Repr

/-- The response `handleRequest` in `apiRouter.ts` produces from the outcome
of `simulateIpcCall`: a result already carrying a `success` field is passed
through, any other result is wrapped as a success with data, and a thrown
error becomes a 500 response carrying the error message. -/
def handleRequest : Except String IpcValue → HttpResponse
  | .ok (.wrapped success payload) => ⟨200, .passthrough success payload⟩
  | .ok (.plain payload) => ⟨200, .successData payload⟩
  | .error e => ⟨500, .failure e⟩

/-! ## CORS setup (webServerManager.ts, `setupMiddleware`) -/

/-- The `origin` field of the CORS options: `true` (any origin) or the
configured origin list. -/
inductive CorsOrigin where
  | anyOrigin
  | originList (l : List String)
deriving DecidableEq, Repr

/-- The CORS options object built in `setupMiddleware`. -/
structure CorsOptions where
  origin : CorsOrigin
  credentials : Bool
  methods : List String
  allowedHeaders : List String
  optionsSuccessStatus : Nat
deriving DecidableEq, Repr

/-- The CORS options `setupMiddleware` derives from the configured origin
list: wildcard present means any origin with credentials disabled, otherwise
exactly the listed origins with credentials enabled. -/
def corsOptionsFor (origins : List String) : CorsOptions :=
  let hasWildcard := origins.contains "*"
  { origin := if hasWildcard then .anyOrigin else .originList origins
    credentials := !hasWildcard
    methods := ["GET", "POST", "PUT", "DELETE", "OPTIONS"]
    allowedHeaders := ["Content-Type", "Authorization", "X-API-Key"]
    optionsSuccessStatus := 200 }

/-- The CORS section of the web-server configuration. -/
structure CorsConfig where
  enabled : Bool
  origins : List String
deriving DecidableEq, Repr

/-- Function `setupMiddleware` installs the CORS middleware exactly when
`config.cors.enabled` holds, with options derived from the origin list. -/
def setupCors (cfg : CorsConfig) : Option CorsOptions :=
  if cfg.enabled then some (corsOptionsFor cfg.origins) else none

/-! ## Authentication middleware (webServerManager.ts, `authMiddleware`) -/

/-- A request-header value as node delivers it: a single string or a list of
strings (repeated header). -/
inductive HeaderValue where
  | str (s : String)
  | arr (l : List String)
deriving DecidableEq, Repr

/-- JavaScript truthiness of a header value: the empty string is falsy,
every other string and every array is truthy. -/
def jsTruthy : HeaderValue → Bool
  | .str s => s != ""
  | .arr _ => true

/-- JavaScript string replace with a string pattern: removes the first
occurrence of `pat` (here the replacement is the empty string, as in the
source, which replaces the pattern "Bearer " by the empty string). -/
def replaceFirst (s pat : String) : String :=
  match s.splitOn pat with
  | [] => s
  | [x] => x
  | x :: y :: rest => x ++ y ++ String.join (rest.map (fun r => pat ++ r))

/-- The parts of an HTTP request the auth middleware inspects. -/
structure HttpRequest where
  path : String
  xApiKey : Option HeaderValue
  authorization : Option String
deriving DecidableEq, Repr

/-- The key the middleware reads: the header named x-api-key if truthy,
otherwise the authorization header with its first "Bearer " removed by the
optional-chained replace (or nothing when both are absent/falsy). -/
def presentedApiKey (req : HttpRequest) : Option HeaderValue :=
  let fallback := req.authorization.map (fun a => HeaderValue.str (replaceFirst a "Bearer "))
  match req.xApiKey with
  | some v => if jsTruthy v then some v else fallback
  | none => fallback

/-- The auth section of the web-server configuration. -/
structure AuthConfig where
  enabled : Bool
  apiKey : Option String
deriving DecidableEq, Repr

/-- The outcome of the auth middleware: pass the request on to the next
handler, or answer it directly with a status and JSON body fields. -/
inductive AuthOutcome where
  | next
  | respond (status : Nat) (success : Bool) (error : String) (message : String)
deriving DecidableEq, Repr

/-- The compound rejection test of the middleware: an absent or falsy key,
an array-valued header (not of string type), a key that is blank after
trimming, or a key different from the configured one is rejected. -/
def authRejects (cfg : AuthConfig) : Option HeaderValue → Bool
  | none => true
  | some (.arr _) => true
  | some (.str s) => (s == "") || (s.trim == "") || (cfg.apiKey != some s)

/-- Function `authMiddleware` from `webServerManager.ts`: `/health` always passes;
otherwise the request is answered with 401 unless the presented key is a
string that is truthy, not blank after trimming, and equal to the configured
key. -/
def authMiddleware (cfg : AuthConfig) (req : HttpRequest) : AuthOutcome :=
  if req.path == "/health" then .next
  else if authRejects cfg (presentedApiKey req) then
    .respond 401 false "Unauthorized" "Valid API key required"
  else .next

/-- Function `setupMiddleware` installs `authMiddleware` exactly when
`config.auth.enabled` holds; with auth disabled every request passes the
(absent) middleware. -/
def runAuthMiddleware (cfg : AuthConfig) (req : HttpRequest) : AuthOutcome :=
  if cfg.enabled then authMiddleware cfg req else .next

/-- The claim's pass condition: the request presents a non-empty string API
key (via `x-api-key` or the authorization header) equal to the configured
key. -/
def presentsValidKey (cfg : AuthConfig) (req : HttpRequest) : Prop :=
  ∃ s, presentedApiKey req = some (.str s) ∧ s ≠ "" ∧ cfg.apiKey = some s

/-! ## Service initialization (index.ts, `initializeServices`) -/

/-- The outcome of `initializeServices`, projected to what the permission
channel's startup affects: the socket path handed to the agent manager,
whether each later service was still constructed, and whether the degraded
mode was reported through the error log (which the main process forwards to
the renderer). -/
structure InitResult where
  permissionIpcPath : Option String
  permissionServerLive : Bool
  claudeCodeManagerStarted : Bool
  executionTrackerStarted : Bool
  taskQueueStarted : Bool
  webServerManagerStarted : Bool
  degradedModeSurfaced : Bool
deriving DecidableEq, Repr

/-- Function `initializeServices` from `index.ts`, as a function of whether
`permissionIpcServer.start()` succeeds (carrying the socket path) or throws:
on failure the catch block logs the degradation, nulls the server, and
initialization continues constructing every remaining service with a null
socket path. -/
def initializeServices : Except String String → InitResult
  | .ok socketPath => ⟨some socketPath, true, true, true, true, true, false⟩
  | .error _ => ⟨none, false, true, true, true, true, true⟩

/-- Modelled from the spec: the permission decision made when the channel is
unavailable.  The Permission Channel implementation is absent from the source
tree; the spec states that without a running channel every permission-gated
action is denied by default (fail-closed). -/
def permissionDecisionWithChannel (channelPath : Option String) (m : PermissionMode) : Decision :=
  match channelPath with
  | none => .deny
  | some _ => channelDecision m

/-! ## Session manager (modelled; `sessionManager.ts` is not under the
source tree — only its callers in `apiRouter.ts` are) -/

/-- Session status values from the data model. -/
inductive SessionStatus where
  | initializing
  | ready
  | running
  | waitingForInput
  | completed
  | errorState
  | archived
deriving DecidableEq, Repr

/-- A session record, restricted to the fields the modelled operations
touch. -/
structure Session where
  id : String
  name : String
  worktreePath : String
  prompt : String
  permissionMode : PermissionMode
  isMainRepo : Bool
  autoCommit : Bool
  status : SessionStatus
  archivedAt : Option Nat
deriving DecidableEq, Repr

/-- One turn of dialogue. -/
structure ConversationMessage where
  sessionId : String
  role : String
  content : String
deriving DecidableEq, Repr

/-- The session manager's persisted state: session records, conversation
messages, messages forwarded to the process supervisor, and the ids of
sessions with a live subprocess. -/
structure ManagerState where
  sessions : List Session
  messages : List ConversationMessage
  forwarded : List (String × String)
  procs : List String
deriving DecidableEq, Repr

/-- The session-manager errors named by the spec's error taxonomy that the
modelled operations raise. -/
inductive SessionError where
  | sessionNotFound
  | sessionArchived
deriving DecidableEq, Repr

/-- The inputs of a `createSession` call. -/
structure CreateSessionParams where
  name : String
  worktreePath : String
  prompt : String
  permissionMode : PermissionMode
  isMainRepo : Bool
  autoCommit : Bool
deriving DecidableEq, Repr

/-- Modelled from the spec: `SessionManager.createSession` is not under the
source tree.  Per the spec it persists the new Session as `initializing` and
returns once the record is created; no agent response is awaited, so the
returned value and the stored messages are unchanged by any agent. -/
def createSession (st : ManagerState) (newId : String) (p : CreateSessionParams) :
    Session × ManagerState :=
  let s : Session :=
    ⟨newId, p.name, p.worktreePath, p.prompt, p.permissionMode,
      p.isMainRepo, p.autoCommit, .initializing, none⟩
  (s, { st with sessions := st.sessions ++ [s] })

/-- The per-record update `archiveSession` applies: the matching session is
marked archived with its archive time set (kept if already set); other
sessions are untouched. -/
def archiveStep (sid : String) (now : Nat) (t : Session) : Session :=
  if t.id == sid then
    { t with status := .archived, archivedAt := some (t.archivedAt.getD now) }
  else t

/-- The body of `archiveSession` once the session lookup has resolved. -/
def archiveSessionWith (st : ManagerState) (sid : String) (now : Nat) :
    Option Session → Except SessionError ManagerState
  | none => .error .sessionNotFound
  | some _ =>
      .ok { st with
        sessions := st.sessions.map (archiveStep sid now),
        procs := st.procs.filter (fun p => !(p == sid)) }

/-- Modelled from the spec: `SessionManager.archiveSession` is not under the
source tree.  Per the spec it kills the subprocess, marks the session
`archived` and sets `archivedAt`; it is idempotent. -/
def archiveSession (st : ManagerState) (sid : String) (now : Nat) :
    Except SessionError ManagerState :=
  archiveSessionWith st sid now (st.sessions.find? (fun s => s.id == sid))

/-- The body of `continueConversation` once the session lookup has
resolved. -/
def continueConversationWith (st : ManagerState) (sid msg : String) :
    Option Session → Except SessionError ManagerState
  | none => .error .sessionNotFound
  | some s =>
      if s.status == .archived then .error .sessionArchived
      else
        .ok { st with
          messages := st.messages ++ [⟨sid, "user", msg⟩],
          forwarded := st.forwarded ++ [(sid, msg)] }

/-- Modelled from the spec: `SessionManager.continueConversation` is not
under the source tree.  Per the spec it appends a ConversationMessage and
forwards the message to the process supervisor, failing with
`SessionNotFoundError` or `SessionArchivedError` as appropriate. -/
def continueConversation (st : ManagerState) (sid msg : String) :
    Except SessionError ManagerState :=
  continueConversationWith st sid msg (st.sessions.find? (fun s => s.id == sid))

/-- A mutating operation submitted to the task queue under a session key. -/
inductive QueueOp where
  | continueOp (message : String)
  | archiveOp
deriving DecidableEq, Repr

/-- The queue's admission gate once the keyed session has been looked up. -/
def submitGateWith : Option Session → Except SessionError Unit
  | some s => if s.status == .archived then .error .sessionArchived else .ok ()
  | none => .ok ()

/-- Modelled from the spec: the Task Queue is not under the source tree.
Per the spec, operations submitted for an archived session's key are
rejected with `SessionArchivedError`. -/
def submitForSession (st : ManagerState) (sid : String) (_op : QueueOp) :
    Except SessionError Unit :=
  submitGateWith (st.sessions.find? (fun s => s.id == sid))

/-! ## Execution tracker (modelled; `executionTracker.ts` is not under the
source tree) -/

/-- One recorded agent turn, restricted to the fields the sequence-number
invariant concerns. -/
structure Execution where
  sessionId : String
  sequence : Nat
deriving DecidableEq, Repr

/-- Modelled from the spec: the Diff/Execution Tracker is not under the
source tree.  Per the spec, on a `turn-complete` event it assigns the next
sequence number for that session — one more than the count already recorded,
starting at 1 — and persists an immutable Execution record; it is the sole
writer of Executions, so the record list only ever grows by this append. -/
def trackTurnComplete (execs : List Execution) (sid : String) : List Execution :=
  execs ++ [⟨sid, (execs.filter (fun e => e.sessionId == sid)).length + 1⟩]

/-- Run the tracker over a list of `turn-complete` events (each event names
the session it completes a turn for), starting from already-recorded
executions. -/
def runTrackerAux (acc : List Execution) : List String → List Execution
  | [] => acc
  | sid :: evs => runTrackerAux (trackTurnComplete acc sid) evs

/-- Run the tracker over a list of `turn-complete` events from an empty
record store. -/
def runTracker (evs : List String) : List Execution :=
  runTrackerAux [] evs

/-- The sequence numbers recorded for one session, in record order. -/
def sessionSeqs (execs : List Execution) (sid : String) : List Nat :=
  (execs.filter (fun e => e.sessionId == sid)).map (fun e => e.sequence)

/-! ## Concrete fixtures for instantiating the theorems -/

/-- A live example session. -/
def exSession : Session :=
  ⟨"s1", "n", "w", "p", .approve, false, true, .running, none⟩

/-- A manager state holding the live example session and its subprocess. -/
def exState : ManagerState := ⟨[exSession], [], [], ["s1"]⟩

/-- The state `exState` reaches after archiving session `s1` at time 5. -/
def exArchivedState : ManagerState :=
  ⟨[⟨"s1", "n", "w", "p", .approve, false, true, .archived, some 5⟩], [], [], []⟩

/-- An archived example session. -/
def exArchSession : Session :=
  ⟨"s2", "n2", "w2", "p2", .ignore, false, false, .archived, some 3⟩

/-- A manager state holding only the archived example session. -/
def exState2 : ManagerState := ⟨[exArchSession], [], [], []⟩

end Crystal

/-- C9: with authentication enabled, a request whose path is not `/health`
is answered 401 with a body carrying success `false` and error
`Unauthorized` — reaching no route handler — unless it presents a non-empty
string API key equal to the configured key; when no key is configured every
such request is rejected; and `/health` always passes the middleware. -/
theorem c9_auth_middleware (cfg : Crystal.AuthConfig) (req : Crystal.HttpRequest)
    (hEnabled : cfg.enabled = true) :
    (req.path ≠ "/health" → ¬ Crystal.presentsValidKey cfg req →
      Crystal.runAuthMiddleware cfg req =
        .respond 401 false "Unauthorized" "Valid API key required") ∧
    (cfg.apiKey = none → req.path ≠ "/health" →
      Crystal.runAuthMiddleware cfg req =
        .respond 401 false "Unauthorized" "Valid API key required") ∧
    (req.path = "/health" → Crystal.runAuthMiddleware cfg req = .next) := by
  have hrun : Crystal.runAuthMiddleware cfg req = Crystal.authMiddleware cfg req := by
    simp [Crystal.runAuthMiddleware, hEnabled]
  refine ⟨?_, ?_, ?_⟩
  · intro hp hnv
    have hrej : Crystal.authRejects cfg (Crystal.presentedApiKey req) = true := by
      cases hk : Crystal.presentedApiKey req with
      | none => rfl
      | some v =>
        cases v with
        | arr l => rfl
        | str s =>
          by_cases hs : s = ""
          · simp [Crystal.authRejects, hs]
          · have hc : cfg.apiKey ≠ some s := fun hc => hnv ⟨s, hk, hs, hc⟩
            simp [Crystal.authRejects, hc]
    rw [hrun]
    unfold Crystal.authMiddleware
    rw [if_neg (by simp [hp]), if_pos hrej]
  · intro hnone hp
    have hrej : Crystal.authRejects cfg (Crystal.presentedApiKey req) = true := by
      cases hk : Crystal.presentedApiKey req with
      | none => rfl
      | some v =>
        cases v with
        | arr l => rfl
        | str s => simp [Crystal.authRejects, hnone]
    rw [hrun]
    unfold Crystal.authMiddleware
    rw [if_neg (by simp [hp]), if_pos hrej]
  · intro hp
    rw [hrun]
    unfold Crystal.authMiddleware
    rw [if_pos (by simp [hp])]

/-- C9 witness: with auth enabled, a keyless request to `/api/sessions` is
rejected with the 401 body both when a key is configured and when none is,
and a request to `/health` passes. -/
theorem c9_auth_middleware_witness :
    Crystal.runAuthMiddleware ⟨true, some "secret"⟩ ⟨"/api/sessions", none, none⟩ =
      .respond 401 false "Unauthorized" "Valid API key required" ∧
    Crystal.runAuthMiddleware ⟨true, none⟩ ⟨"/api/sessions", none, none⟩ =
      .respond 401 false "Unauthorized" "Valid API key required" ∧
    Crystal.runAuthMiddleware ⟨true, some "secret"⟩ ⟨"/health", none, none⟩ = .next := by
  refine ⟨?_, ?_, ?_⟩
  · exact (c9_auth_middleware ⟨true, some "secret"⟩ ⟨"/api/sessions", none, none⟩ rfl).1
      (by decide)
      (by rintro ⟨s, hs, -, -⟩; simp [Crystal.presentedApiKey] at hs)
  · exact (c9_auth_middleware ⟨true, none⟩ ⟨"/api/sessions", none, none⟩ rfl).2.1 rfl (by decide)
  · exact (c9_auth_middleware ⟨true, some "secret"⟩ ⟨"/health", none, none⟩ rfl).2.2 rfl

/-- C6: if the permission channel fails to start, initialization still
completes (the agent manager, tracker, task queue and web server are all
constructed, so sessions may still run), the channel path is null, the
degraded mode is surfaced through the forwarded error log, and — with the
channel decision modelled from the spec — every permission-gated action is
denied (fail-closed). -/
theorem c6_permission_channel_fail_closed (e : String) :
    (Crystal.initializeServices (.error e)).claudeCodeManagerStarted = true ∧
    (Crystal.initializeServices (.error e)).executionTrackerStarted = true ∧
    (Crystal.initializeServices (.error e)).taskQueueStarted = true ∧
    (Crystal.initializeServices (.error e)).webServerManagerStarted = true ∧
    (Crystal.initializeServices (.error e)).permissionIpcPath = none ∧
    (Crystal.initializeServices (.error e)).permissionServerLive = false ∧
    (Crystal.initializeServices (.error e)).degradedModeSurfaced = true ∧
    (∀ m : Crystal.PermissionMode,
      Crystal.permissionDecisionWithChannel
        (Crystal.initializeServices (.error e)).permissionIpcPath m = .deny) := by
  refine ⟨rfl, rfl, rfl, rfl, rfl, rfl, rfl, ?_⟩
  intro m
  rfl

/-- C1: the three mutating session operations exposed at the HTTP interface
(create, continue-conversation, archive) are dispatched by `simulateIpcCall`
directly to the session manager and not through the task queue, contradicting
the claim that they are invoked exclusively through the Task Queue. -/
theorem c1_router_bypasses_task_queue :
    Crystal.simulateIpcCallTarget "sessions:create" = .sessionManager ∧
    Crystal.simulateIpcCallTarget "sessions:continue" = .sessionManager ∧
    Crystal.simulateIpcCallTarget "sessions:delete" = .sessionManager ∧
    Crystal.simulateIpcCallTarget "sessions:create" ≠ .taskQueue ∧
    Crystal.simulateIpcCallTarget "sessions:continue" ≠ .taskQueue ∧
    Crystal.simulateIpcCallTarget "sessions:delete" ≠ .taskQueue ∧
    ("POST", "/sessions", "sessions:create") ∈ Crystal.sessionRoutes ∧
    ("POST", "/sessions/:id/continue", "sessions:continue") ∈ Crystal.sessionRoutes ∧
    ("DELETE", "/sessions/:id", "sessions:delete") ∈ Crystal.sessionRoutes := by
  refine ⟨rfl, rfl, rfl, ?_, ?_, ?_, ?_, ?_, ?_⟩ <;> decide

/-- C2 counterexample: the router passes `createSession` its arguments in the
order (name, worktreePath, prompt, worktreeName, permissionMode, projectId,
isMainRepo, autoCommit, folderId); in particular the second positional
argument is `worktreePath`, not `prompt`, and the sixth is `projectId`, so
the order claimed by the spec does not match the call site. -/
theorem c2_arg_order_counterexample :
    Crystal.routerCreateSessionArgOrder ≠ Crystal.specCreateSessionArgOrder ∧
    Crystal.routerCreateSessionArgOrder.get? 1 = some .worktreePath ∧
    Crystal.specCreateSessionArgOrder.get? 1 = some .prompt ∧
    Crystal.routerCreateSessionArgOrder.get? 5 = some .projectId := by
  refine ⟨?_, rfl, rfl, rfl⟩
  decide

/-- C3 counterexample: neither of the two permission-mode values declared by
the config type ("approve" and "ignore") is the value "auto-approve"
or "auto-deny" the claim names, so the claimed pair of values is not the
pair of values in the code. -/
theorem c3_mode_values_counterexample :
    Crystal.modeCode .approve ≠ "auto-approve" ∧
    Crystal.modeCode .approve ≠ "auto-deny" ∧
    Crystal.modeCode .ignore ≠ "auto-approve" ∧
    Crystal.modeCode .ignore ≠ "auto-deny" := by
  refine ⟨?_, ?_, ?_, ?_⟩ <;> decide

/-- C3 amended: the permission mode is one of exactly the two values
"approve" and "ignore", and (with the decision policy of the channel
modelled from the spec) the decision for a request is approve exactly when
the mode of the owning session is "approve" at request time, and deny
exactly when it is "ignore". -/
theorem c3_permission_modes_amended :
    (∀ m : Crystal.PermissionMode,
      Crystal.modeCode m = "approve" ∨ Crystal.modeCode m = "ignore") ∧
    (∀ m : Crystal.PermissionMode,
      Crystal.channelDecision m = .approve ↔ m = .approve) ∧
    (∀ m : Crystal.PermissionMode,
      Crystal.channelDecision m = .deny ↔ m = .ignore) := by
  refine ⟨?_, ?_, ?_⟩ <;> intro m <;> cases m <;> simp [Crystal.modeCode, Crystal.channelDecision]

/-- C5: for every outcome of a dispatched operation, `handleRequest` produces
exactly one response — a 200 success response carrying the operation's data
(or the operation's own already-wrapped result), or a 500 failure response
carrying the error message — so a failure is reported to the original caller
of that operation and never swallowed or retried. -/
theorem c5_exactly_one_explicit_outcome :
    (∀ e : String, Crystal.handleRequest (.error e) = ⟨500, .failure e⟩) ∧
    (∀ p : String, Crystal.handleRequest (.ok (.plain p)) = ⟨200, .successData p⟩) ∧
    (∀ s : Bool, ∀ p : String,
      Crystal.handleRequest (.ok (.wrapped s p)) = ⟨200, .passthrough s p⟩) ∧
    (∀ r : Except String Crystal.IpcValue, ∀ resp : Crystal.HttpResponse,
      Crystal.handleRequest r = resp →
        (resp.status = 200 ∧ ∃ v, r = .ok v) ∨
        (resp.status = 500 ∧ ∃ e, r = .error e ∧ resp.body = .failure e)) := by
  refine ⟨fun e => rfl, fun p => rfl, fun s p => rfl, ?_⟩
  intro r resp h
  cases r with
  | ok v =>
      cases v <;> exact Or.inl ⟨by rw [← h]; rfl, _, rfl⟩
  | error e =>
      exact Or.inr ⟨by rw [← h]; rfl, e, rfl, by rw [← h]; rfl⟩

/-- C5 witness: at the concrete failed outcome "boom" the wrapper yields the
explicit 500 failure response carrying that error. -/
theorem c5_exactly_one_explicit_outcome_witness :
    Crystal.handleRequest (.error "boom") = ⟨500, .failure "boom"⟩ ∧
    ((500, (Crystal.ResponseBody.failure "boom")) =
      ((Crystal.handleRequest (.error "boom")).status,
        (Crystal.handleRequest (.error "boom")).body)) := by
  refine ⟨c5_exactly_one_explicit_outcome.1 "boom", ?_⟩
  rfl

/-- C10: when CORS is enabled, the options are derived deterministically from
the configured origin list — a wildcard entry yields any-origin with
credentials disabled, otherwise exactly the listed origins with credentials
enabled. -/
theorem c10_cors_options (cfg : Crystal.CorsConfig) (hEnabled : cfg.enabled = true) :
    Crystal.setupCors cfg = some (Crystal.corsOptionsFor cfg.origins) ∧
    (cfg.origins.contains "*" = true →
      (Crystal.corsOptionsFor cfg.origins).origin = .anyOrigin ∧
      (Crystal.corsOptionsFor cfg.origins).credentials = false) ∧
    (cfg.origins.contains "*" = false →
      (Crystal.corsOptionsFor cfg.origins).origin = .originList cfg.origins ∧
      (Crystal.corsOptionsFor cfg.origins).credentials = true) := by
  refine ⟨by simp [Crystal.setupCors, hEnabled], ?_, ?_⟩ <;>
    intro hw <;> simp at hw <;> simp [Crystal.corsOptionsFor, hw]

/-- C10 witness: with CORS enabled and origins `["*"]` the options allow any
origin and disable credentials. -/
theorem c10_cors_options_witness :
    Crystal.setupCors ⟨true, ["*"]⟩ = some (Crystal.corsOptionsFor ["*"]) ∧
    (Crystal.corsOptionsFor ["*"]).origin = .anyOrigin ∧
    (Crystal.corsOptionsFor ["*"]).credentials = false := by
  have h := c10_cors_options ⟨true, ["*"]⟩ rfl
  exact ⟨h.1, h.2.1 (by decide)⟩

/-- The per-record archive update does not change a session's id. -/
theorem Crystal.archiveStep_id (sid : String) (now : Nat) (t : Crystal.Session) :
    (Crystal.archiveStep sid now t).id = t.id := by
  unfold Crystal.archiveStep
  split <;> rfl

/-- Applying the archive update a second time (with any later time) changes
nothing. -/
theorem Crystal.archiveStep_idem (sid : String) (now now2 : Nat) (t : Crystal.Session) :
    Crystal.archiveStep sid now2 (Crystal.archiveStep sid now t) = Crystal.archiveStep sid now t := by
  unfold Crystal.archiveStep
  by_cases h : (t.id == sid) = true
  · simp [h]
  · simp [h]

/-- Looking a session up after the archive update finds the updated version
of exactly the session found before. -/
theorem Crystal.find_map_archiveStep (sid : String) (now : Nat) (l : List Crystal.Session) :
    (l.map (Crystal.archiveStep sid now)).find? (fun s => s.id == sid) =
      (l.find? (fun s => s.id == sid)).map (Crystal.archiveStep sid now) := by
  induction l with
  | nil => rfl
  | cons t l ih =>
    by_cases h : (t.id == sid) = true
    · simp [List.find?_cons, Crystal.archiveStep_id, h]
    · simp [List.find?_cons, Crystal.archiveStep_id, h, ih]

/-- Mapping the archive update over an already-updated list changes
nothing. -/
theorem Crystal.map_archiveStep_idem (sid : String) (now now2 : Nat) (l : List Crystal.Session) :
    (l.map (Crystal.archiveStep sid now)).map (Crystal.archiveStep sid now2) =
      l.map (Crystal.archiveStep sid now) := by
  induction l with
  | nil => rfl
  | cons t l ih => simp [Crystal.archiveStep_idem, ih]

/-- Filtering out a killed subprocess id a second time changes nothing. -/
theorem Crystal.filter_ne_idem (sid : String) (l : List String) :
    (l.filter (fun p => !(p == sid))).filter (fun p => !(p == sid)) =
      l.filter (fun p => !(p == sid)) := by
  induction l with
  | nil => rfl
  | cons a l ih =>
    by_cases h : (a == sid) = true
    · simp [List.filter_cons, h, ih]
    · simp [List.filter_cons, h, ih]

/-- C4: archiveSession is idempotent (spec-modelled session manager): after a
successful first call the session is archived with its archive time set and
no live subprocess remains, and a second call returns the very same state
with no error. -/
theorem c4_archive_idempotent (st : Crystal.ManagerState) (sid : String) (now now2 : Nat)
    (st1 : Crystal.ManagerState) (h : Crystal.archiveSession st sid now = .ok st1) :
    Crystal.archiveSession st1 sid now2 = .ok st1 ∧
    (∀ s ∈ st1.sessions, s.id = sid → s.status = .archived ∧ s.archivedAt.isSome = true) ∧
    sid ∉ st1.procs := by
  unfold Crystal.archiveSession at h
  cases hf : st.sessions.find? (fun s => s.id == sid) with
  | none =>
      rw [hf] at h
      exact absurd h (by simp [Crystal.archiveSessionWith])
  | some s0 =>
      rw [hf] at h
      simp only [Crystal.archiveSessionWith] at h
      have hst : st1 = { st with
          sessions := st.sessions.map (Crystal.archiveStep sid now),
          procs := st.procs.filter (fun p => !(p == sid)) } := (Except.ok.inj h).symm
      subst hst
      refine ⟨?_, ?_, ?_⟩
      · unfold Crystal.archiveSession
        show Crystal.archiveSessionWith _ sid now2
            ((st.sessions.map (Crystal.archiveStep sid now)).find? (fun s => s.id == sid)) = _
        rw [Crystal.find_map_archiveStep, hf]
        show Crystal.archiveSessionWith _ sid now2 (some (Crystal.archiveStep sid now s0)) = _
        simp only [Crystal.archiveSessionWith, Crystal.map_archiveStep_idem, Crystal.filter_ne_idem]
      · intro s hs hid
        rcases List.mem_map.mp hs with ⟨t, ht, rfl⟩
        have hteq : (t.id == sid) = true := by
          have hid' : t.id = sid := by
            rw [← Crystal.archiveStep_id sid now t]
            exact hid
          exact beq_iff_eq.mpr hid'
        constructor
        · show (Crystal.archiveStep sid now t).status = .archived
          unfold Crystal.archiveStep
          rw [if_pos hteq]
        · show (Crystal.archiveStep sid now t).archivedAt.isSome = true
          unfold Crystal.archiveStep
          rw [if_pos hteq]
          rfl
      · intro hmem
        have hq := (List.mem_filter.mp hmem).2
        simp at hq

/-- C4 witness: archiving session `s1` again, after the successful archive
that produced `exArchivedState`, returns the very same state with no error,
and no subprocess for `s1` remains. -/
theorem c4_archive_idempotent_witness :
    Crystal.archiveSession Crystal.exArchivedState "s1" 7 = .ok Crystal.exArchivedState ∧
    "s1" ∉ Crystal.exArchivedState.procs :=
  have h := c4_archive_idempotent Crystal.exState "s1" 5 7 Crystal.exArchivedState (by rfl)
  ⟨h.1, h.2.2⟩

/-- C2 amended: the router invokes `createSession` with arguments in the
order (name, worktreePath, prompt, worktreeName, permissionMode, projectId,
isMainRepo, autoCommit, folderId), and (session manager modelled from the
spec) the call persists the new Session with status `initializing` and
returns the created record at once — the stored messages gain no agent
response. -/
theorem c2_create_session_amended :
    Crystal.routerCreateSessionArgOrder =
      [.name, .worktreePath, .prompt, .worktreeName, .permissionMode,
       .projectId, .isMainRepo, .autoCommit, .folderId] ∧
    (∀ (st : Crystal.ManagerState) (newId : String) (p : Crystal.CreateSessionParams),
      (Crystal.createSession st newId p).1.status = .initializing) ∧
    (∀ (st : Crystal.ManagerState) (newId : String) (p : Crystal.CreateSessionParams),
      (Crystal.createSession st newId p).2.sessions =
        st.sessions ++ [(Crystal.createSession st newId p).1]) ∧
    (∀ (st : Crystal.ManagerState) (newId : String) (p : Crystal.CreateSessionParams),
      (Crystal.createSession st newId p).2.messages = st.messages) ∧
    (∀ (st : Crystal.ManagerState) (newId : String) (p : Crystal.CreateSessionParams),
      (Crystal.createSession st newId p).1.id = newId) :=
  ⟨rfl, fun _ _ _ => rfl, fun _ _ _ => rfl, fun _ _ _ => rfl, fun _ _ _ => rfl⟩

/-- C7: continueConversation (session manager and queue modelled from the
spec) fails with SessionNotFoundError when no session exists for the id,
fails with SessionArchivedError when the session is archived — as does every
operation submitted for an archived session's key — and otherwise appends
the ConversationMessage and forwards it to the supervisor. -/
theorem c7_continue_conversation (st : Crystal.ManagerState) (sid msg : String) :
    (st.sessions.find? (fun s => s.id == sid) = none →
      Crystal.continueConversation st sid msg = .error .sessionNotFound) ∧
    (∀ s, st.sessions.find? (fun s => s.id == sid) = some s → s.status = .archived →
      Crystal.continueConversation st sid msg = .error .sessionArchived ∧
      (∀ op, Crystal.submitForSession st sid op = .error .sessionArchived)) ∧
    (∀ s, st.sessions.find? (fun s => s.id == sid) = some s → s.status ≠ .archived →
      Crystal.continueConversation st sid msg =
        .ok { st with messages := st.messages ++ [⟨sid, "user", msg⟩],
                      forwarded := st.forwarded ++ [(sid, msg)] }) := by
  refine ⟨?_, ?_, ?_⟩
  · intro h
    unfold Crystal.continueConversation
    rw [h]
    rfl
  · intro s hs harch
    constructor
    · unfold Crystal.continueConversation
      rw [hs]
      simp [Crystal.continueConversationWith, harch]
    · intro op
      unfold Crystal.submitForSession
      rw [hs]
      simp [Crystal.submitGateWith, harch]
  · intro s hs hn
    unfold Crystal.continueConversation
    rw [hs]
    simp [Crystal.continueConversationWith, hn]

/-- C7 witness: in the concrete state whose only session `s2` is archived,
continuing the conversation and submitting a queued operation under that key
both fail with SessionArchivedError. -/
theorem c7_continue_conversation_witness :
    Crystal.continueConversation Crystal.exState2 "s2" "hi" = .error .sessionArchived ∧
    Crystal.submitForSession Crystal.exState2 "s2" (.continueOp "hi") = .error .sessionArchived :=
  have h := (c7_continue_conversation Crystal.exState2 "s2" "hi").2.1
    Crystal.exArchSession (by rfl) (by rfl)
  ⟨h.1, h.2 (.continueOp "hi")⟩

/-- Recording a turn for a session appends the next sequence number to that
session's sequence list. -/
theorem Crystal.sessionSeqs_track_same (acc : List Crystal.Execution) (sid : String) :
    Crystal.sessionSeqs (Crystal.trackTurnComplete acc sid) sid =
      Crystal.sessionSeqs acc sid ++ [(Crystal.sessionSeqs acc sid).length + 1] := by
  unfold Crystal.sessionSeqs Crystal.trackTurnComplete
  simp [List.filter_append, List.length_map]

/-- Recording a turn for a different session leaves a session's sequence
list unchanged. -/
theorem Crystal.sessionSeqs_track_other (acc : List Crystal.Execution) (sid sid' : String)
    (h : sid' ≠ sid) :
    Crystal.sessionSeqs (Crystal.trackTurnComplete acc sid') sid =
      Crystal.sessionSeqs acc sid := by
  unfold Crystal.sessionSeqs Crystal.trackTurnComplete
  simp [List.filter_append, h]

/-- Running the tracker extends each session's sequence list by the
consecutive range that continues where the accumulated records stop. -/
theorem Crystal.runTrackerAux_seqs (evs : List String) :
    ∀ (acc : List Crystal.Execution) (sid : String),
      Crystal.sessionSeqs (Crystal.runTrackerAux acc evs) sid =
        Crystal.sessionSeqs acc sid ++
          List.range' ((Crystal.sessionSeqs acc sid).length + 1) (evs.count sid) := by
  induction evs with
  | nil =>
      intro acc sid
      simp [Crystal.runTrackerAux]
  | cons e evs ih =>
      intro acc sid
      have step : Crystal.runTrackerAux acc (e :: evs) =
          Crystal.runTrackerAux (Crystal.trackTurnComplete acc e) evs := rfl
      rw [step, ih]
      by_cases h : e = sid
      · subst h
        rw [Crystal.sessionSeqs_track_same, List.count_cons_self, List.length_append,
          List.range'_succ]
        simp [List.append_assoc]
      · rw [Crystal.sessionSeqs_track_other acc sid e h]
        have hc : (e :: evs).count sid = evs.count sid := by
          simp [List.count_cons, Ne.symm h]
        rw [hc]

/-- C8 (execution tracker modelled from the spec): for every interleaving of
turn-complete events, each session's recorded sequence numbers are exactly
1, 2, …, its event count — starting at 1, strictly increasing, with no gap —
and processing a further event only appends a record, leaving every existing
Execution unchanged (the tracker is the sole writer in the model). -/
theorem c8_execution_sequences : ∀ (evs : List String) (sid : String),
    Crystal.sessionSeqs (Crystal.runTracker evs) sid = List.range' 1 (evs.count sid) ∧
    (Crystal.sessionSeqs (Crystal.runTracker evs) sid).Pairwise (· < ·) ∧
    (∀ e, Crystal.runTracker (evs ++ [e]) =
      Crystal.runTracker evs ++
        [⟨e, ((Crystal.runTracker evs).filter (fun x => x.sessionId == e)).length + 1⟩]) := by
  intro evs sid
  have hmain : Crystal.sessionSeqs (Crystal.runTracker evs) sid =
      List.range' 1 (evs.count sid) := by
    have h := Crystal.runTrackerAux_seqs evs [] sid
    simpa [Crystal.runTracker, Crystal.sessionSeqs] using h
  refine ⟨hmain, ?_, ?_⟩
  · rw [hmain]
    exact List.pairwise_lt_range' 1 (evs.count sid)
  · intro e
    have happ : ∀ (l : List String) (acc : List Crystal.Execution),
        Crystal.runTrackerAux acc (l ++ [e]) =
          Crystal.trackTurnComplete (Crystal.runTrackerAux acc l) e := by
      intro l
      induction l with
      | nil => intro acc; rfl
      | cons x xs ih => intro acc; exact ih (Crystal.trackTurnComplete acc x)
    unfold Crystal.runTracker
    rw [happ evs []]
    rfl
